import Mathlib

/-!
Verification of the context-aggregation and message-translation core of
`src/pipecat/services/google.py`.

The Python source is shallowly embedded: dictionaries become structures,
tagged unions become inductives, `None`-able values become `Option`, raised
exceptions become `Option.none` results, and Python truthiness is made
explicit through `...Truthy` functions.  JSON payloads transported as
strings (`json.dumps` / `json.loads`) are represented by the JSON value they
denote, because the Python `json` module round-trips losslessly for the
JSON-representable values this module produces; a plain string that is not a
tracked JSON serialization is kept as `StdContent.str`, on which `json.loads`
is modelled as a raised exception.
-/

namespace Pipecat

/-- A JSON value, used for function-call arguments, function responses and
JSON-encoded string payloads (Python `dict`/`list`/scalars). -/
inductive J where
  | null
  | bool (b : Bool)
  | num (n : Int)
  | str (s : String)
  | arr (elts : List J)
  | obj (fields : List (String × J))

/-- Python truthiness of a JSON value (`if frame.result:` and similar). -/
def jTruthy : J → Bool
  | .null => false
  | .bool b => b
  | .num n => n != 0
  | .str s => !(s == "")
  | .arr l => !l.isEmpty
  | .obj l => !l.isEmpty

/-- True exactly for the empty JSON object (an empty protobuf `Struct`). -/
def jIsEmptyObj : J → Bool
  | .obj [] => true
  | _ => false

/-- Decimal rendering of a natural number, used by the model of
`json.dumps` for numeric values. -/
def natDecimal (n : Nat) : String :=
  if h : n < 10 then String.singleton (Char.ofNat (48 + n))
  else natDecimal (n / 10) ++ String.singleton (Char.ofNat (48 + n % 10))
  termination_by n
  decreasing_by
    exact Nat.div_lt_self (Nat.pos_of_ne_zero (by omega)) (by omega)

/-- Decimal rendering of an integer. -/
def intDecimal (n : Int) : String :=
  if n < 0 then "-" ++ natDecimal n.natAbs else natDecimal n.natAbs

/-- Minimal JSON string escaping (backslash and double quote), as performed
by `json.dumps` on the payloads this module produces. -/
def jEscape (s : String) : String :=
  (s.replace "\\" "\\\\").replace "\"" "\\\""

mutual

/-- Model of `json.dumps`: serialize a JSON value to its text.  Only the
facts that the output is non-empty and is a function of the value are used
by the theorems below. -/
def jdumps : J → String
  | .null => "null"
  | .bool true => "true"
  | .bool false => "false"
  | .num n => intDecimal n
  | .str s => "\"" ++ jEscape s ++ "\""
  | .arr l => "[" ++ jdumpsList l ++ "]"
  | .obj l => "\x7b" ++ jdumpsObj l ++ "\x7d"

/-- Comma-separated serialization of a JSON array body. -/
def jdumpsList : List J → String
  | [] => ""
  | [x] => jdumps x
  | x :: xs => jdumps x ++ ", " ++ jdumpsList xs

/-- Comma-separated serialization of a JSON object body. -/
def jdumpsObj : List (String × J) → String
  | [] => ""
  | [(k, v)] => "\"" ++ jEscape k ++ "\": " ++ jdumps v
  | (k, v) :: xs => "\"" ++ jEscape k ++ "\": " ++ jdumps v ++ ", " ++ jdumpsObj xs

end

/-! ## The canonical (vendor) message model: `glm.Content` and `glm.Part` -/

/-- `glm.Blob`: an inline binary payload with a mime type.  Bytes are
modelled as a list of naturals. -/
structure Blob where
  mime_type : String
  data : List Nat
deriving Repr

/-- `glm.FunctionCall`: a function name plus a mapping of arguments. -/
structure FunctionCall where
  name : String
  args : J

/-- `glm.FunctionResponse`: a function name plus a response mapping. -/
structure FunctionResponse where
  name : String
  response : J

/-- `glm.Part`: a oneof over text, inline data, function call and function
response.  Exactly one variant is active. -/
inductive Part where
  | text (s : String)
  | inline_data (b : Blob)
  | function_call (fc : FunctionCall)
  | function_response (fr : FunctionResponse)

/-- `glm.Content`: one conversational turn, a role plus ordered parts. -/
structure Content where
  role : String
  parts : List Part

/-- Protobuf truthiness of an inline blob (`elif part.inline_data:`): a
proto-plus message is truthy when it has non-default content. -/
def blobTruthy (b : Blob) : Bool :=
  !(b.mime_type == "" && b.data.isEmpty)

/-- Protobuf truthiness of a function call (`elif part.function_call:`). -/
def fcTruthy (name : String) (args : J) : Bool :=
  !(name == "" && jIsEmptyObj args)

/-! ## The standard (OpenAI-shaped) message model -/

/-- One typed content item of a standard message.  An `image_url` item is a
base64 data URI; the embedding keeps it structured as the declared mime type
plus the decoded bytes (base64 decoding of an encoding is the identity, and
the base64 alphabet contains no comma, so the split on a comma performed by
the source recovers exactly the encoded payload). -/
inductive StdItem where
  | text (t : String)
  | image_url (mime : String) (data : List Nat)

/-- The `content` field of a standard message.  `items []` doubles as the
absent field (the source reads it with a default of the empty list);
`jstr v` is a string whose text is the JSON serialization of `v` (the only
strings the source ever parses with `json.loads`); `str s` is any other
plain string, on which `json.loads` is modelled as raising. -/
inductive StdContent where
  | str (s : String)
  | jstr (v : J)
  | items (l : List StdItem)

/-- Python truthiness of a standard content value (`if self.system_message`
and `if not msg["content"]`).  A `jstr` is a non-empty string, hence truthy. -/
def stdContentTruthy : StdContent → Bool
  | .str s => !(s == "")
  | .jstr _ => true
  | .items l => !l.isEmpty

/-- One entry of a standard `tool_calls` list.  The `arguments` value is
transported as a JSON-encoded string in the source and represented here by
the JSON value it denotes. -/
structure ToolCall where
  id : String
  ctype : String
  name : String
  arguments : J

/-- A standard (provider-neutral) message. An empty `tool_calls` list
doubles as the absent field (the source tests it with truthiness). -/
structure StdMessage where
  role : String
  content : StdContent
  tool_calls : List ToolCall
  tool_call_id : Option String

/-- Result of `GoogleLLMContext.from_standard_message`: a system entry is
diverted to the system message slot, every other entry yields a canonical
`Content`. -/
inductive FromStd where
  | sys (c : StdContent)
  | msg (c : Content)

/-- The canonical Part built from one typed standard content item; the mime
type of an image is hard-coded to JPEG by the source. -/
def itemToPart : StdItem → Part
  | .text t => .text t
  | .image_url _ data => .inline_data ⟨"image/jpeg", data⟩

/-- `GoogleLLMContext.from_standard_message` (google.py lines 276-323).
Returns `none` when the Python code would raise (a `tool`-role entry whose
content is not a JSON-encoded string object). -/
def from_standard_message (m : StdMessage) : Option FromStd :=
  if m.role == "system" then
    some (.sys m.content)
  else
    let role := if m.role == "assistant" then "model" else m.role
    if !m.tool_calls.isEmpty then
      some (.msg ⟨role,
        m.tool_calls.map (fun tc => .function_call ⟨tc.name, tc.arguments⟩)⟩)
    else if role == "tool" then
      match m.content with
      | .jstr v =>
          some (.msg ⟨"model", [.function_response ⟨"tool_call_result", v⟩]⟩)
      | _ => none
    else
      match m.content with
      | .str s => some (.msg ⟨role, [.text s]⟩)
      | .jstr v => some (.msg ⟨role, [.text (jdumps v)]⟩)
      | .items l => some (.msg ⟨role, l.map itemToPart⟩)

/-- The mutable dictionary accumulated by
`GoogleLLMContext.to_standard_messages` while folding over the parts. -/
structure ToStdAcc where
  role : String
  content : StdContent
  tool_calls : List ToolCall
  tool_call_id : Option String

/-- One step of the part loop of `to_standard_messages` (lines 330-360).
Every branch mirrors the `if part.text / elif ...` chain, including the
protobuf truthiness of each oneof field.  Returns `none` when the Python
code would raise (appending a content item after the content slot has been
replaced by a function-response string). -/
def toStdStep (acc : ToStdAcc) (p : Part) : Option ToStdAcc :=
  match p with
  | .text s =>
      if s == "" then some acc
      else match acc.content with
        | .items l => some { acc with content := .items (l ++ [.text s]) }
        | _ => none
  | .inline_data b =>
      if blobTruthy b then
        match acc.content with
        | .items l =>
            some { acc with content := .items (l ++ [.image_url b.mime_type b.data]) }
        | _ => none
      else some acc
  | .function_call fc =>
      if fcTruthy fc.name fc.args then
        some { acc with tool_calls := [⟨fc.name, "function", fc.name, fc.args⟩] }
      else some acc
  | .function_response fr =>
      if fcTruthy fr.name fr.response then
        some { acc with
          role := "tool"
          tool_call_id := some fr.name
          content := .jstr fr.response }
      else some acc

/-- `GoogleLLMContext.to_standard_messages` (lines 325-365): translate one
canonical Content into a singleton list of standard messages, deleting a
falsy content field at the end. -/
def to_standard_messages (obj : Content) : Option (List StdMessage) := do
  let role := if obj.role == "model" then "assistant" else obj.role
  let acc ← obj.parts.foldlM toStdStep ⟨role, .items [], [], none⟩
  let content := if stdContentTruthy acc.content then acc.content else .items []
  pure [⟨acc.role, content, acc.tool_calls, acc.tool_call_id⟩]

/-! ## The Google conversation context -/

/-- `GoogleLLMContext` after restructuring: an ordered list of canonical
messages plus the diverted system message (`None` initially). -/
structure GoogleLLMContext where
  messages : List Content
  system_message : Option StdContent

/-- The list-comprehension pass of `_restructure_from_openai_messages`
(lines 371-375): map `from_standard_message` over the standard messages in
order, diverting system entries into the system slot (a later system entry
overwrites an earlier one) and dropping them from the mapped list.  `none`
models an exception raised inside the comprehension. -/
def restructure_core : List StdMessage → Option StdContent →
    Option (Option StdContent × List Content)
  | [], sys => some (sys, [])
  | m :: rest, sys =>
    match from_standard_message m with
    | none => none
    | some (.sys c) => restructure_core rest (some c)
    | some (.msg c) =>
        (restructure_core rest sys).map (fun p => (p.1, c :: p.2))

/-- `GoogleLLMContext._restructure_from_openai_messages` (lines 367-385):
map the standard messages, then, if a truthy system message was diverted
and the mapped list is empty, synthesize a single user message carrying the
system text (building a text Part from non-string system content raises
inside the try block, leaving the list empty), and finally prune messages
with empty parts.  An exception inside the comprehension (`none`) leaves
raw dictionaries in the message list and the final parts filter then raises
out of the caller, modelled as an overall `none`. -/
def restructure_from_openai_messages (msgs : List StdMessage) :
    Option GoogleLLMContext :=
  match restructure_core msgs none with
  | none => none
  | some (sys, mapped) =>
    let mapped :=
      if (match sys with
          | some c => stdContentTruthy c
          | none => false) && mapped.isEmpty then
        match sys with
        | some (.str s) => [⟨"user", [Part.text s]⟩]
        | _ => mapped
      else mapped
    some ⟨mapped.filter (fun m => !m.parts.isEmpty), sys⟩

/-- `GoogleLLMContext.set_messages` (lines 217-219): replace the entire
history with the given standard messages and restructure. -/
def set_messages (messages : List StdMessage) : Option GoogleLLMContext :=
  restructure_from_openai_messages messages

/-- A context object as seen by `upgrade_to_google`: either a generic
`OpenAILLMContext` still holding standard messages, or an already
specialized `GoogleLLMContext`. -/
inductive ContextObj where
  | generic (msgs : List StdMessage)
  | google (g : GoogleLLMContext)

/-- `GoogleLLMContext.upgrade_to_google` (lines 209-215): a generic context
is specialized in place and restructured; an already specialized context is
returned unchanged, with no restructuring. -/
def upgrade_to_google : ContextObj → Option ContextObj
  | .generic msgs =>
      (restructure_from_openai_messages msgs).map ContextObj.google
  | .google g => some (.google g)

/-- Modelled from the spec: the byte-level JPEG codec applied by
`add_image_frame_message` is external library code (PIL), outside this
repository; the spec only requires that the raw pixels are encoded to some
JPEG byte payload, so the encoding is abstracted as a total function of the
raw data. -/
def jpeg_image_bytes (format : String) (size : Nat × Nat)
    (image : List Nat) : List Nat :=
  let _ := format
  let _ := size
  image

/-- `GoogleLLMContext.add_image_frame_message` (lines 235-247): the user
message appended for an image attachment, an optional leading text Part
(only when the text is truthy) followed by the JPEG inline blob. -/
def add_image_frame_message (format : String) (size : Nat × Nat)
    (image : List Nat) (text : Option String) : Content :=
  letI textParts : List Part :=
    match text with
    | some t => if t == "" then [] else [.text t]
    | none => []
  ⟨"user", textParts ++ [.inline_data ⟨"image/jpeg", jpeg_image_bytes format size image⟩]⟩

/-! ## The aggregators -/

/-- One observable action performed during a flush, paired in the traces
below with the value of the pending-text buffer at the moment the action
executes. -/
inductive AggEvent where
  | add_message (m : Content)
  | add_image_message (m : Content)
  | clear_text_buffer
  | reset_state
  | push_context_frame
  | push_context_downstream

/-- State of `GoogleUserContextAggregator`: the pending-text buffer. -/
structure UserAggState where
  aggregation : String

/-- Modelled from the spec: the base-class accumulation step
(`OpenAIUserContextAggregator`, not part of this repository) appends each
arriving text fragment to the pending-text buffer. -/
def on_text_fragment (s : UserAggState) (t : String) : UserAggState :=
  ⟨s.aggregation ++ t⟩

/-- `GoogleUserContextAggregator._push_aggregation` (lines 107-121) as a
trace of actions, each annotated with the buffer value at the moment it
executes: append the user message built from the buffer, then clear the
buffer, then push the context frame downstream, then reset the auxiliary
accumulator state.  An empty buffer flush performs nothing. -/
def user_push_aggregation (s : UserAggState) :
    UserAggState × List (AggEvent × String) :=
  if s.aggregation == "" then (s, [])
  else
    (⟨""⟩,
      [(.add_message ⟨"user", [.text s.aggregation]⟩, s.aggregation),
       (.clear_text_buffer, s.aggregation),
       (.push_context_downstream, ""),
       (.reset_state, "")])

/-- `FunctionCallResultFrame` as consumed by the assistant aggregator: the
function name, its arguments and the result payload (a Python string result
is `J.str`). -/
structure FunctionCallResult where
  function_name : String
  arguments : J
  result : J

/-- A pending image attachment: format, size and raw bytes of the user
image frame plus the optional accompanying text. -/
structure ImageFrameMessage where
  format : String
  size : Nat × Nat
  image : List Nat
  text : Option String

/-- State of `GoogleAssistantContextAggregator`: pending text, the
single-slot pending function result, the pending attachment, and the count
of function calls still in flight for this turn. -/
structure AssistantAggState where
  aggregation : String
  function_call_result : Option FunctionCallResult
  pending_image_frame_message : Option ImageFrameMessage
  function_calls_in_progress : Nat

/-- Wrapping of a plain-string function result as a response object
(lines 154-156): `J.str s` becomes the mapping with single key `response`. -/
def wrap_string_result (r : J) : J :=
  match r with
  | .str s => .obj [("response", .str s)]
  | r => r

/-- Assigning a Python value to a protobuf `Struct` field — the `args` of
`glm.FunctionCall` (line 148) and the `response` of `glm.FunctionResponse`
(line 163): a mapping is stored as given; `None`, booleans and numbers are
accepted but leave the stored payload empty; a list or a plain string
cannot be coerced and makes the proto construction raise. -/
def structCoerce : J → Option J
  | .obj fields => some (.obj fields)
  | .null => some (.obj [])
  | .bool _ => some (.obj [])
  | .num _ => some (.obj [])
  | .str _ => none
  | .arr _ => none

/-- `GoogleAssistantContextAggregator._push_aggregation` (lines 125-193) as
a trace of actions annotated with the pending-text buffer value at each
step.  The guard returns early when nothing is pending; otherwise the
buffer is captured and `_reset` clears it before anything is appended.  A
pending function result with a truthy payload builds and appends the
function-call and the function-response messages and arms re-invocation
exactly when no function calls remain in flight — but either proto
construction raises when its `Struct` payload cannot be coerced
(`structCoerce`), and the enclosing except block (lines 192-193) then
swallows the error and ends the flush right there: the events emitted so
far stand, the already-performed state mutations (result slot cleared,
buffer reset) are kept, the pending attachment is left in place, and
neither the re-invocation signal nor the downstream context frame is
pushed.  With no pending result the buffered text is committed as a model
message; a pending attachment is appended through the image-message
operation and arms re-invocation unconditionally; finally the re-invocation
signal (if armed) and the downstream context frame are pushed. -/
def assistant_push_aggregation (s : AssistantAggState) :
    AssistantAggState × List (AggEvent × String) :=
  if s.aggregation == "" && s.function_call_result.isNone
      && s.pending_image_frame_message.isNone then
    (s, [])
  else
    let aggregation := s.aggregation
    let resetEv : AggEvent × String := (.reset_state, aggregation)
    let fcStep : List (AggEvent × String) × Bool × Bool :=
      match s.function_call_result with
      | some frame =>
        if jTruthy frame.result then
          match structCoerce frame.arguments with
          | none => ([], false, true)
          | some args =>
            match structCoerce (wrap_string_result frame.result) with
            | none =>
              ([(.add_message ⟨"model",
                  [.function_call ⟨frame.function_name, args⟩]⟩, "")],
               false, true)
            | some response =>
              ([(.add_message ⟨"model",
                  [.function_call ⟨frame.function_name, args⟩]⟩, ""),
                (.add_message ⟨"user",
                  [.function_response ⟨frame.function_name, response⟩]⟩, "")],
               s.function_calls_in_progress == 0, false)
        else ([], false, false)
      | none =>
        ([(.add_message ⟨"model", [.text aggregation]⟩, "")], false, false)
    if fcStep.2.2 then
      (⟨"", none, s.pending_image_frame_message, s.function_calls_in_progress⟩,
       resetEv :: fcStep.1)
    else
      let imgStep : List (AggEvent × String) × Bool :=
        match s.pending_image_frame_message with
        | some img =>
          ([(.add_image_message
              (add_image_frame_message img.format img.size img.image img.text), "")],
           true)
        | none => ([], fcStep.2.1)
      let signalEvents : List (AggEvent × String) :=
        if imgStep.2 then [(.push_context_frame, "")] else []
      (⟨"", none, none, s.function_calls_in_progress⟩,
       resetEv :: (fcStep.1 ++ imgStep.1 ++ signalEvents
         ++ [(.push_context_downstream, "")]))

/-- The canonical messages appended to the context during a flush trace. -/
def appended_messages (tr : List (AggEvent × String)) : List Content :=
  tr.filterMap (fun eb =>
    match eb.1 with
    | .add_message m => some m
    | .add_image_message m => some m
    | _ => none)

/-- Whether the re-invocation signal was sent during a flush trace. -/
def signal_sent (tr : List (AggEvent × String)) : Bool :=
  tr.any (fun eb =>
    match eb.1 with
    | .push_context_frame => true
    | _ => false)

/-- Whether an action appends a message to the conversation context. -/
def is_context_append (e : AggEvent) : Bool :=
  match e with
  | .add_message _ => true
  | .add_image_message _ => true
  | _ => false

/-! ## The streaming response consumer -/

/-- The usage metadata carried by a streaming response. -/
structure UsageMetadata where
  prompt_token_count : Nat
  candidates_token_count : Nat
  total_token_count : Nat

/-- One part of a streamed chunk: a text delta or a function call. -/
inductive StreamPart where
  | text (s : String)
  | function_call (name : String) (args : J)

/-- Accessing the parts of a chunk either yields them or raises (the source
notes safety blocks as the common cause); a raise is caught by the
per-chunk handler and only logged. -/
inductive ChunkBody where
  | parts (l : List StreamPart)
  | raises (finish_reason : Nat)

/-- One streamed chunk: optional (truthy) usage metadata plus its body. -/
structure Chunk where
  usage_metadata : Option UsageMetadata
  body : ChunkBody

/-- How one invocation of the external client unfolds: the opening call (or
the first usage-metadata read) fails, or the stream opens with initial
usage metadata and yields a list of chunks, possibly failing afterwards
while draining. -/
inductive StreamOutcome where
  | openFailure
  | opened (init : UsageMetadata) (chunks : List Chunk) (drainFailure : Bool)

/-- The pipeline events emitted by `_process_context`. -/
inductive LLMEvent where
  | full_response_start
  | text_frame (s : String)
  | function_invocation (tool_call_id : String) (name : String) (args : J)
  | usage_report (prompt_tokens completion_tokens total_tokens : Nat)
  | full_response_end

/-- The events emitted for one chunk body (lines 479-498): text parts with
truthy text become text frames, truthy function calls become function
invocations with the placeholder tool-call id; a raising body is caught and
yields nothing. -/
def chunk_events (body : ChunkBody) : List LLMEvent :=
  match body with
  | .parts l =>
      l.filterMap (fun p =>
        match p with
        | .text s => if s == "" then none else some (.text_frame s)
        | .function_call name args =>
            if fcTruthy name args then
              some (.function_invocation "what_should_this_be" name args)
            else none)
  | .raises _ => []

/-- `GoogleLLMService._process_context` (lines 438-510): the emitted event
list plus a flag recording whether the call itself raises.  When the stream
opens, the usage counters start from the initial metadata and, for every
chunk with truthy usage metadata, the counters re-add the outer response
totals (lines 476-478 read `response.usage_metadata`, not the chunk);
whether or not draining fails afterwards, the finally block reports usage
once and pushes the end frame.  When opening fails, the except block
swallows the error but the finally block reads the still-unassigned token
counters and raises `UnboundLocalError`, so neither the usage report nor
the end frame is emitted and the call propagates an error. -/
def process_context (outcome : StreamOutcome) : List LLMEvent × Bool :=
  match outcome with
  | .openFailure => ([.full_response_start], true)
  | .opened init chunks _drainFailure =>
      let usage :=
        chunks.foldl
          (fun (u : Nat × Nat × Nat) (c : Chunk) =>
            match c.usage_metadata with
            | some _ =>
                (u.1 + init.prompt_token_count,
                 u.2.1 + init.candidates_token_count,
                 u.2.2 + init.total_token_count)
            | none => u)
          (init.prompt_token_count, init.candidates_token_count,
           init.total_token_count)
      let evs := chunks.foldl (fun acc c => acc ++ chunk_events c.body) []
      ([.full_response_start] ++ evs
        ++ [.usage_report usage.1 usage.2.1 usage.2.2, .full_response_end],
       false)

/-! ## Round-trip side conditions -/

/-- How one typed content item is normalized by a to-standard-and-back
round trip: the declared mime type of an image collapses to JPEG on the
first ingestion, so it is already JPEG when re-emitted. -/
def normItem : StdItem → StdItem
  | .text t => .text t
  | .image_url _ data => .image_url "image/jpeg" data

/-- Every text fragment of the content is non-empty, so that none of the
corresponding text Parts is dropped by the truthiness checks of
`to_standard_messages`. -/
def text_content_ok : StdContent → Bool
  | .str s => !(s == "")
  | .jstr _ => true
  | .items l => l.all (fun it =>
      match it with
      | .text t => !(t == "")
      | .image_url _ _ => true)

/-- The side condition under which a standard message survives the
canonical round trip: at most one tool call (the source keeps only the last
one), tool-call names non-empty (an empty name with empty arguments is a
falsy protobuf part and is dropped), and no empty text fragments; system
entries are diverted and tool-role results are exempt (their shape is fixed
by the translation). -/
def std_message_ok (m : StdMessage) : Bool :=
  m.role == "system"
  || (match m.tool_calls with
      | [] =>
          (if m.role == "assistant" then "model" else m.role) == "tool"
          || text_content_ok m.content
      | [tc] => !(tc.name == "")
      | _ :: _ :: _ => false)

/-! ## Helper lemmas -/

theorem singleton_length (c : Char) : (String.singleton c).length = 1 := rfl

theorem length_pos_ne_empty {s : String} (h : 0 < s.length) : s ≠ "" := by
  intro he
  subst he
  simp at h

theorem natDecimal_length_pos (n : Nat) : 0 < (natDecimal n).length := by
  rw [natDecimal]
  split
  · rw [singleton_length]
    omega
  · rw [String.length_append, singleton_length]
    omega

theorem intDecimal_length_pos (n : Int) : 0 < (intDecimal n).length := by
  unfold intDecimal
  split
  · rw [String.length_append]
    have := natDecimal_length_pos n.natAbs
    omega
  · exact natDecimal_length_pos n.natAbs

theorem jdumps_ne_empty (v : J) : jdumps v ≠ "" := by
  apply length_pos_ne_empty
  cases v with
  | null => decide
  | bool b => cases b <;> decide
  | num n => rw [jdumps]; exact intDecimal_length_pos n
  | str s =>
    rw [jdumps, String.length_append, String.length_append]
    have h1 : ("\"" : String).length = 1 := rfl
    omega
  | arr l =>
    rw [jdumps, String.length_append, String.length_append]
    have h1 : ("[" : String).length = 1 := rfl
    omega
  | obj l =>
    rw [jdumps, String.length_append, String.length_append]
    have h1 : ("\x7b" : String).length = 1 := rfl
    omega

theorem restructure_no_empty_parts (ms : List StdMessage) (g : GoogleLLMContext)
    (h : restructure_from_openai_messages ms = some g) :
    ∀ m ∈ g.messages, m.parts ≠ [] := by
  intro m hm
  unfold restructure_from_openai_messages at h
  cases hr : restructure_core ms none with
  | none => rw [hr] at h; exact absurd h (by simp)
  | some p =>
    rw [hr] at h
    obtain ⟨sys, mapped⟩ := p
    simp only [Option.some.injEq] at h
    subst h
    simp only [List.mem_filter] at hm
    intro he
    rw [he] at hm
    simp at hm

/-! ## C4 -/

/-- C4 (code_bug): when opening the stream fails, `_process_context` does
not emit the usage report or the end-of-turn marker: the except block
swallows the open error, but the finally block reads the never-assigned
token counters and raises, so only the start frame is emitted and the call
propagates an error, contradicting the claim that exactly one usage report
and the end-of-turn marker are emitted regardless of failures. -/
theorem process_context_open_failure_drops_usage_and_end :
    process_context .openFailure = ([.full_response_start], true) := rfl

/-! ## C9 -/

/-- C9 (confirmed): the context upgrade operation is idempotent: once an
upgrade produced a vendor-specific context, upgrading the result again
performs no restructuring and returns it unchanged, so no messages are
duplicated. -/
theorem upgrade_to_google_idempotent (c c' : ContextObj)
    (h : upgrade_to_google c = some c') :
    upgrade_to_google c' = some c' := by
  cases c with
  | generic msgs =>
    rw [show upgrade_to_google (.generic msgs)
        = (restructure_from_openai_messages msgs).map ContextObj.google from rfl] at h
    cases hr : restructure_from_openai_messages msgs with
    | none => rw [hr] at h; exact absurd h (by simp)
    | some g =>
      rw [hr] at h
      simp only [Option.map_some', Option.some.injEq] at h
      subst h
      rfl
  | google g =>
    simp only [upgrade_to_google, Option.some.injEq] at h
    subst h
    rfl

/-- C9 witness: a concrete generic context upgraded once yields a Google
context which a second upgrade returns unchanged. -/
theorem upgrade_to_google_idempotent_witness :
    upgrade_to_google (.google ⟨[⟨"user", [.text "hi"]⟩], none⟩)
      = some (.google ⟨[⟨"user", [.text "hi"]⟩], none⟩) :=
  upgrade_to_google_idempotent
    (.generic [⟨"user", .str "hi", [], none⟩])
    (.google ⟨[⟨"user", [.text "hi"]⟩], none⟩) rfl

/-! ## C5 -/

/-- C5 (confirmed): after `set_messages` (and after the restructuring run
by an upgrade of a generic context), no message in the context has an empty
parts sequence: every empty-parts message is pruned. -/
theorem set_messages_no_empty_parts :
    (∀ ms g, set_messages ms = some g → ∀ m ∈ g.messages, m.parts ≠ [])
    ∧ (∀ ms g, upgrade_to_google (.generic ms) = some (.google g) →
        ∀ m ∈ g.messages, m.parts ≠ []) := by
  constructor
  · exact fun ms g h => restructure_no_empty_parts ms g h
  · intro ms g h
    apply restructure_no_empty_parts ms g
    rw [show upgrade_to_google (.generic ms)
        = (restructure_from_openai_messages ms).map ContextObj.google from rfl] at h
    cases hr : restructure_from_openai_messages ms with
    | none => rw [hr] at h; exact absurd h (by simp)
    | some g' =>
      rw [hr] at h
      simp only [Option.map_some', Option.some.injEq, ContextObj.google.injEq] at h
      rw [h]

/-- C5 witness: a concrete conversation run through `set_messages` yields a
message whose parts are non-empty. -/
theorem set_messages_no_empty_parts_witness :
    (⟨"user", [.text "hi"]⟩ : Content).parts ≠ [] :=
  set_messages_no_empty_parts.1 [⟨"user", .str "hi", [], none⟩]
    ⟨[⟨"user", [.text "hi"]⟩], none⟩ rfl ⟨"user", [.text "hi"]⟩ (List.Mem.head _)

theorem foldl_on_text_fragment (frags : List String) (a : String) :
    List.foldl on_text_fragment ⟨a⟩ frags
      = ⟨List.foldl (fun r s => r ++ s) a frags⟩ := by
  induction frags generalizing a with
  | nil => rfl
  | cons f rest ih => exact ih (a ++ f)

/-! ## C7 -/

/-- C7 (confirmed): accumulating any sequence of user text fragments and
then flushing commits exactly one user message whose text is the
concatenation of the fragments in arrival order, clears the buffer before
the downstream emission, and leaves the buffer empty afterwards; a flush
with an empty buffer appends nothing and emits nothing. -/
theorem user_aggregation_concat_flush (frags : List String) :
    user_push_aggregation (List.foldl on_text_fragment ⟨""⟩ frags)
      = (⟨""⟩,
        if String.join frags == "" then []
        else
          [(.add_message ⟨"user", [.text (String.join frags)]⟩, String.join frags),
           (.clear_text_buffer, String.join frags),
           (.push_context_downstream, ""),
           (.reset_state, "")]) := by
  rw [foldl_on_text_fragment]
  have hj : String.join frags = List.foldl (fun r s => r ++ s) "" frags := rfl
  rw [← hj]
  by_cases h : String.join frags = "" <;>
    simp [user_push_aggregation, h]

/-! ## C1 -/

/-- C1 counterexample: the claim quantifies over every flush with a pending
function result, but (first input) a pending result whose payload is the
empty string appends zero messages and sends no re-invocation signal even
with no calls in flight, and (second input) a pending truthy result
together with a pending attachment and calls still in flight appends three
messages and does send the signal — not exactly two with no signal. -/
theorem assistant_flush_pending_result_exact_two_false :
    (appended_messages (assistant_push_aggregation
        ⟨"", some ⟨"f", .obj [], .str ""⟩, none, 0⟩).2).length = 0
    ∧ signal_sent (assistant_push_aggregation
        ⟨"", some ⟨"f", .obj [], .str ""⟩, none, 0⟩).2 = false
    ∧ (appended_messages (assistant_push_aggregation
        ⟨"", some ⟨"f", .obj [], .str "ok"⟩,
          some ⟨"RGB", (2, 2), [0, 1, 2], none⟩, 5⟩).2).length = 3
    ∧ signal_sent (assistant_push_aggregation
        ⟨"", some ⟨"f", .obj [], .str "ok"⟩,
          some ⟨"RGB", (2, 2), [0, 1, 2], none⟩, 5⟩).2 = true :=
  ⟨rfl, rfl, rfl, rfl⟩

/-- C1 (corrected): flushing the assistant aggregator with a pending
function result whose payload is truthy and storable — the arguments form a
mapping and the payload is a plain string or a mapping, so that neither
proto construction raises — and with no pending attachment appends exactly
two messages: a model message carrying the function call and a user message
carrying the function response, a plain-string result wrapped as a response
object; the re-invocation signal is sent exactly when no function calls
remain in flight. -/
theorem assistant_flush_truthy_result_two_messages
    (agg : String) (fr : FunctionCallResult) (k : Nat)
    (h : jTruthy fr.result = true)
    (hargs : structCoerce fr.arguments = some fr.arguments)
    (hres : structCoerce (wrap_string_result fr.result)
      = some (wrap_string_result fr.result)) :
    appended_messages (assistant_push_aggregation ⟨agg, some fr, none, k⟩).2
      = [⟨"model", [.function_call ⟨fr.function_name, fr.arguments⟩]⟩,
         ⟨"user", [.function_response
            ⟨fr.function_name, wrap_string_result fr.result⟩]⟩]
    ∧ signal_sent (assistant_push_aggregation ⟨agg, some fr, none, k⟩).2
        = (k == 0) := by
  constructor <;>
    · simp only [assistant_push_aggregation, appended_messages, signal_sent,
        Option.isNone_some, Bool.and_false, Bool.false_and, Bool.if_false_left,
        h, hargs, hres, if_true]
      cases hk : (k == 0) <;>
        simp [hk, List.filterMap, List.any]

/-- C1 witness: a concrete flush with a truthy string result (wrapped to a
mapping), mapping arguments and zero in-flight calls. -/
theorem assistant_flush_truthy_result_two_messages_witness :
    jTruthy (.str "ok") = true
    ∧ structCoerce (J.obj []) = some (J.obj [])
    ∧ structCoerce (wrap_string_result (.str "ok"))
        = some (wrap_string_result (.str "ok"))
    ∧ signal_sent (assistant_push_aggregation
        ⟨"", some ⟨"f", .obj [], .str "ok"⟩, none, 0⟩).2 = ((0 : Nat) == 0) :=
  ⟨rfl, rfl, rfl,
    (assistant_flush_truthy_result_two_messages "" ⟨"f", .obj [], .str "ok"⟩
      0 rfl rfl rfl).2⟩

/-! ## C10 -/

/-- C10 counterexample: the claim quantifies over every flush with a
pending falsy-payload function result, yet when an attachment is also
pending the re-invocation signal is sent, so the claim that no signal is
sent is false as stated. -/
theorem falsy_result_counterexample :
    signal_sent (assistant_push_aggregation
      ⟨"", some ⟨"f", .obj [], .str ""⟩,
        some ⟨"RGB", (2, 2), [0], none⟩, 0⟩).2 = true := rfl

/-- C10 (corrected): flushing with a pending function result whose payload
is falsy and no pending attachment appends no message at all (in
particular neither the function-call nor the function-response message and
not the buffered text, which is discarded), sends no re-invocation signal
even with zero calls in flight, and still clears the pending-result slot
and the text buffer. -/
theorem assistant_flush_falsy_result_discards
    (agg : String) (fr : FunctionCallResult) (k : Nat)
    (h : jTruthy fr.result = false) :
    appended_messages (assistant_push_aggregation ⟨agg, some fr, none, k⟩).2 = []
    ∧ signal_sent (assistant_push_aggregation ⟨agg, some fr, none, k⟩).2 = false
    ∧ (assistant_push_aggregation ⟨agg, some fr, none, k⟩).1
        = ⟨"", none, none, k⟩ := by
  refine ⟨?_, ?_, ?_⟩ <;>
    simp [assistant_push_aggregation, appended_messages, signal_sent, h,
      List.filterMap, List.any]

/-- C10 witness: a concrete flush with an empty-string result payload,
buffered text and zero in-flight calls. -/
theorem assistant_flush_falsy_result_discards_witness :
    jTruthy (.str "") = false
    ∧ appended_messages (assistant_push_aggregation
        ⟨"partial text", some ⟨"f", .obj [], .str ""⟩, none, 0⟩).2 = [] :=
  ⟨rfl,
    (assistant_flush_falsy_result_discards "partial text"
      ⟨"f", .obj [], .str ""⟩ 0 rfl).1⟩

/-! ## C8 -/

/-- C8 counterexample: the claim quantifies over every flush with a
pending attachment, but with a simultaneously pending truthy list-payload
function result the source raises while building the FunctionResponse
(after appending the FunctionCall message) and the except block ends the
flush: the whole trace is the reset action and that single append — the
attachment is never appended through the image-message operation and no
re-invocation signal is sent, contradicting the claim as stated. -/
theorem attachment_flush_aborted_by_malformed_result :
    (assistant_push_aggregation
      ⟨"", some ⟨"f", .obj [], .arr [.num 1]⟩,
        some ⟨"RGB", (2, 2), [0], none⟩, 0⟩).2
      = [(.reset_state, ""),
         (.add_message ⟨"model", [.function_call ⟨"f", .obj []⟩]⟩, "")] := rfl

/-- C8 (corrected): for every flush of the Assistant Aggregator in which an
attachment is pending and which runs to completion — the downstream
context-changed emission is reached, i.e. no pending function result made
the proto construction raise mid-flush — the attachment is appended to the
context through the image-message operation and the re-invocation signal is
always sent, whatever the buffered text, the pending function result and
the number of in-flight calls. -/
theorem assistant_flush_attachment_always_reinvokes
    (agg : String) (fcr : Option FunctionCallResult)
    (img : ImageFrameMessage) (k : Nat)
    (hdone : (AggEvent.push_context_downstream, "")
      ∈ (assistant_push_aggregation ⟨agg, fcr, some img, k⟩).2) :
    ((AggEvent.add_image_message
        (add_image_frame_message img.format img.size img.image img.text), "")
      ∈ (assistant_push_aggregation ⟨agg, fcr, some img, k⟩).2)
    ∧ signal_sent (assistant_push_aggregation ⟨agg, fcr, some img, k⟩).2
        = true := by
  cases fcr with
  | none =>
    constructor <;> simp [assistant_push_aggregation, signal_sent, List.any]
  | some frame =>
    cases hr : jTruthy frame.result with
    | false =>
      constructor <;> simp [assistant_push_aggregation, signal_sent, hr, List.any]
    | true =>
      cases ha : structCoerce frame.arguments with
      | none => simp [assistant_push_aggregation, hr, ha] at hdone
      | some args =>
        cases hw : structCoerce (wrap_string_result frame.result) with
        | none => simp [assistant_push_aggregation, hr, ha, hw] at hdone
        | some response =>
          constructor <;>
            simp [assistant_push_aggregation, signal_sent, hr, ha, hw, List.any]

/-- C8 witness: a completing flush with a pending attachment, no pending
function result, empty buffered text and five calls in flight. -/
theorem assistant_flush_attachment_always_reinvokes_witness :
    ((AggEvent.push_context_downstream, "")
      ∈ (assistant_push_aggregation
          ⟨"", none, some ⟨"RGB", (2, 2), [0], none⟩, 5⟩).2)
    ∧ signal_sent (assistant_push_aggregation
        ⟨"", none, some ⟨"RGB", (2, 2), [0], none⟩, 5⟩).2 = true := by
  have hdone : (AggEvent.push_context_downstream, "")
      ∈ (assistant_push_aggregation
          ⟨"", none, some ⟨"RGB", (2, 2), [0], none⟩, 5⟩).2 :=
    List.Mem.tail _ (List.Mem.tail _ (List.Mem.tail _
      (List.Mem.tail _ (List.Mem.head _))))
  exact ⟨hdone,
    (assistant_flush_attachment_always_reinvokes ""
      none ⟨"RGB", (2, 2), [0], none⟩ 5 hdone).2⟩

/-! ## C2 -/

theorem assistant_trace_annotation (s : AssistantAggState) :
    ∀ x ∈ (assistant_push_aggregation s).2,
      x.1 = AggEvent.reset_state ∨ x.2 = "" := by
  intro x hx
  obtain ⟨agg, fcr, img, k⟩ := s
  cases fcr with
  | none =>
    cases img with
    | none =>
      by_cases hz : agg = ""
      · simp [assistant_push_aggregation, hz] at hx
      · simp [assistant_push_aggregation, hz] at hx
        rcases hx with h | h | h <;> simp [h]
    | some i =>
      simp [assistant_push_aggregation] at hx
      rcases hx with h | h | h | h | h <;> simp [h]
  | some frame =>
    cases hr : jTruthy frame.result with
    | false =>
      cases img with
      | none =>
        simp [assistant_push_aggregation, hr] at hx
        rcases hx with h | h <;> simp [h]
      | some i =>
        simp [assistant_push_aggregation, hr] at hx
        rcases hx with h | h | h | h <;> simp [h]
    | true =>
      cases ha : structCoerce frame.arguments with
      | none =>
        simp [assistant_push_aggregation, hr, ha] at hx
        simp [hx]
      | some args =>
        cases hw : structCoerce (wrap_string_result frame.result) with
        | none =>
          simp [assistant_push_aggregation, hr, ha, hw] at hx
          rcases hx with h | h <;> simp [h]
        | some response =>
          cases img with
          | none =>
            cases hk : (k == 0) with
            | false =>
              simp [assistant_push_aggregation, hr, ha, hw, hk] at hx
              rcases hx with h | h | h | h <;> simp [h]
            | true =>
              simp [assistant_push_aggregation, hr, ha, hw, hk] at hx
              rcases hx with h | h | h | h | h <;> simp [h]
          | some i =>
            simp [assistant_push_aggregation, hr, ha, hw] at hx
            rcases hx with h | h | h | h | h | h <;> simp [h]

/-- C2 counterexample: in the user aggregator the append to the context is
the first action of the flush and executes while the pending-text buffer
still holds the captured text ("hi" here, not the empty string), so the
claim that the buffer is cleared strictly before the append is false. -/
theorem user_flush_append_with_nonempty_buffer :
    (user_push_aggregation ⟨"hi"⟩).2.head?
      = some (.add_message ⟨"user", [.text "hi"]⟩, "hi")
    ∧ ("hi" : String) ≠ "" :=
  ⟨rfl, by decide⟩

/-- C2 (corrected): in both aggregators the pending-text buffer is already
empty at the moment of the downstream context-changed emission; in the
assistant aggregator the buffer is additionally already empty at the moment
each message append executes, whereas in the user aggregator the message is
appended while the buffer still holds the captured (non-empty) text and the
buffer is cleared immediately afterwards, before the emission. -/
theorem flush_buffer_cleared_before_emission :
    (∀ (s : UserAggState) (e : AggEvent) (b : String),
        (e, b) ∈ (user_push_aggregation s).2 →
          (e = .push_context_downstream → b = "")
          ∧ (is_context_append e = true → b = s.aggregation ∧ b ≠ ""))
    ∧ (∀ (s : AssistantAggState) (e : AggEvent) (b : String),
        (e, b) ∈ (assistant_push_aggregation s).2 →
          (e = .push_context_downstream → b = "")
          ∧ (is_context_append e = true → b = "")) := by
  constructor
  · intro s e b hmem
    by_cases hz : s.aggregation = ""
    · simp [user_push_aggregation, hz] at hmem
    · simp only [user_push_aggregation, beq_iff_eq, if_neg hz,
        List.mem_cons, List.not_mem_nil, or_false] at hmem
      rcases hmem with h | h | h | h <;>
        (rw [Prod.ext_iff] at h; obtain ⟨he, hb⟩ := h; subst he; subst hb) <;>
        simp [is_context_append, hz]
  · intro s e b hmem
    rcases assistant_trace_annotation s (e, b) hmem with h | h
    · simp only at h
      subst h
      refine ⟨fun hc => ?_, fun hc => ?_⟩
      · exact absurd hc (by simp)
      · simp [is_context_append] at hc
    · simp only at h
      subst h
      exact ⟨fun _ => rfl, fun _ => rfl⟩

/-- C2 witness: a concrete assistant flush whose message append executes
with an empty buffer, obtained from the corrected theorem. -/
theorem flush_buffer_cleared_before_emission_witness :
    ((AggEvent.add_message ⟨"model", [.text "txt"]⟩, "")
      ∈ (assistant_push_aggregation ⟨"txt", none, none, 0⟩).2)
    ∧ ("" : String) = "" := by
  have hmem : (AggEvent.add_message ⟨"model", [.text "txt"]⟩, "")
      ∈ (assistant_push_aggregation ⟨"txt", none, none, 0⟩).2 :=
    List.Mem.tail _ (List.Mem.head _)
  exact ⟨hmem,
    (flush_buffer_cleared_before_emission.2 ⟨"txt", none, none, 0⟩ _ "" hmem).2 rfl⟩

/-! ## C6 -/

/-- C6 counterexample: the synthesis check runs before the empty-parts
pruning, so (first input) a system message followed by a user entry with
empty content ends with the system slot set and zero messages but no
synthesized user turn, and (second input) a truthy non-string system
content makes the synthesized Part construction raise inside the guarded
block, again leaving zero messages — not the single user message the claim
promises. -/
theorem system_only_synthesis_counterexample :
    set_messages [⟨"system", .str "Be terse", [], none⟩, ⟨"user", .items [], [], none⟩]
      = some ⟨[], some (.str "Be terse")⟩
    ∧ set_messages [⟨"system", .items [.text "hi"], [], none⟩]
      = some ⟨[], some (.items [.text "hi"])⟩ :=
  ⟨rfl, rfl⟩

/-- C6 (corrected): for every standard-message list whose restructuring
diverts a non-empty string system message and maps to zero canonical
messages before the empty-parts pruning step, the context afterwards holds
exactly one canonical user message whose text equals the system content,
and the system message slot is set. -/
theorem system_only_context_synthesizes_user_message
    (ms : List StdMessage) (s : String)
    (hcore : restructure_core ms none = some (some (.str s), []))
    (hs : s ≠ "") :
    set_messages ms = some ⟨[⟨"user", [.text s]⟩], some (.str s)⟩ := by
  unfold set_messages restructure_from_openai_messages
  rw [hcore]
  simp [stdContentTruthy, hs]

/-- C6 witness: a conversation holding only a system prompt. -/
theorem system_only_context_synthesizes_user_message_witness :
    restructure_core [⟨"system", .str "Be terse", [], none⟩] none
      = some (some (.str "Be terse"), [])
    ∧ set_messages [⟨"system", .str "Be terse", [], none⟩]
      = some ⟨[⟨"user", [.text "Be terse"]⟩], some (.str "Be terse")⟩ :=
  ⟨rfl,
    system_only_context_synthesizes_user_message
      [⟨"system", .str "Be terse", [], none⟩] "Be terse" rfl (by decide)⟩

/-! ## C3 -/

theorem roleIn_ne_assistant (r : String) :
    (if r = "assistant" then "model" else r) ≠ "assistant" := by
  by_cases ha : r = "assistant" <;> simp [ha]

theorem roleIn_ne_system (r : String) (hns : r ≠ "system") :
    (if r = "assistant" then "model" else r) ≠ "system" := by
  by_cases ha : r = "assistant" <;> simp [ha, hns]

theorem itemToPart_normItem (l : List StdItem) :
    (l.map normItem).map itemToPart = l.map itemToPart := by
  induction l with
  | nil => rfl
  | cons it rest ih => cases it <;> simp [normItem, itemToPart, ih]

theorem foldlM_items (l : List StdItem) (r : String) (acc0 : List StdItem)
    (tcs : List ToolCall) (tcid : Option String)
    (hok : l.all (fun it =>
      match it with
      | .text t => !(t == "")
      | .image_url _ _ => true) = true) :
    List.foldlM toStdStep (⟨r, .items acc0, tcs, tcid⟩ : ToStdAcc)
        (l.map itemToPart)
      = some ⟨r, .items (acc0 ++ l.map normItem), tcs, tcid⟩ := by
  induction l generalizing acc0 with
  | nil => simp
  | cons it rest ih =>
    simp only [List.all_cons, Bool.and_eq_true] at hok
    cases it with
    | text t =>
      have ht : (t == "") = false := by simpa using hok.1
      simp only [List.map_cons, List.foldlM_cons, itemToPart, toStdStep, ht,
        Bool.false_eq_true, if_false]
      show List.foldlM toStdStep
          (⟨r, .items (acc0 ++ [StdItem.text t]), tcs, tcid⟩ : ToStdAcc)
          (List.map itemToPart rest) = _
      rw [ih _ hok.2]
      simp [normItem]
    | image_url mime data =>
      simp only [List.map_cons, List.foldlM_cons, itemToPart, toStdStep,
        blobTruthy, jIsEmptyObj]
      rw [show (("image/jpeg" : String) == "" && (data.isEmpty : Bool)) = false
        from by simp]
      simp only [Bool.not_false, if_true]
      show List.foldlM toStdStep
          (⟨r, .items (acc0 ++ [StdItem.image_url "image/jpeg" data]), tcs, tcid⟩ : ToStdAcc)
          (List.map itemToPart rest) = _
      rw [ih _ hok.2]
      simp [normItem]

theorem to_std_items (r : String) (l : List StdItem)
    (hok : l.all (fun it =>
      match it with
      | .text t => !(t == "")
      | .image_url _ _ => true) = true) :
    to_standard_messages ⟨r, l.map itemToPart⟩
      = some [⟨if r = "model" then "assistant" else r,
          .items (l.map normItem), [], none⟩] := by
  cases l with
  | nil => simp [to_standard_messages, stdContentTruthy, normItem]
  | cons it rest =>
    have h := foldlM_items (it :: rest)
      (if (r == "model") = true then "assistant" else r) [] [] none hok
    simp only [to_standard_messages]
    rw [h]
    simp [stdContentTruthy]

theorem to_std_single_fc (r nm : String) (args : J) (h : (nm == "") = false) :
    to_standard_messages ⟨r, [.function_call ⟨nm, args⟩]⟩
      = some [⟨if r = "model" then "assistant" else r, .items [],
          [⟨nm, "function", nm, args⟩], none⟩] := by
  simp [to_standard_messages, toStdStep, fcTruthy, h, stdContentTruthy]

theorem to_std_tool_result (v : J) :
    to_standard_messages ⟨"model", [.function_response ⟨"tool_call_result", v⟩]⟩
      = some [⟨"tool", .jstr v, [], some "tool_call_result"⟩] := by
  simp [to_standard_messages, toStdStep, fcTruthy, stdContentTruthy]

theorem roundtrip_items (R : String) (l : List StdItem)
    (hok : l.all (fun it =>
      match it with
      | .text t => !(t == "")
      | .image_url _ _ => true) = true)
    (hRs : R ≠ "system") (hRa : R ≠ "assistant") (hRt : R ≠ "tool") :
    ∃ m', to_standard_messages ⟨R, l.map itemToPart⟩ = some [m']
      ∧ from_standard_message m' = some (.msg ⟨R, l.map itemToPart⟩) := by
  by_cases hRm : R = "model"
  · subst hRm
    refine ⟨⟨"assistant", .items (l.map normItem), [], none⟩, ?_, ?_⟩
    · rw [to_std_items _ l hok]
      simp
    · rw [show from_standard_message ⟨"assistant", .items (l.map normItem), [], none⟩
          = some (.msg ⟨"model", (l.map normItem).map itemToPart⟩) from by
        simp [from_standard_message]]
      rw [itemToPart_normItem]
  · refine ⟨⟨R, .items (l.map normItem), [], none⟩, ?_, ?_⟩
    · rw [to_std_items _ l hok]
      simp [hRm]
    · rw [show from_standard_message ⟨R, .items (l.map normItem), [], none⟩
          = some (.msg ⟨R, (l.map normItem).map itemToPart⟩) from by
        simp [from_standard_message, hRs, hRa, hRt]]
      rw [itemToPart_normItem]

theorem roundtrip_single_fc (R nm : String) (args : J)
    (hRs : R ≠ "system") (hRa : R ≠ "assistant") (hnm : (nm == "") = false) :
    ∃ m', to_standard_messages ⟨R, [.function_call ⟨nm, args⟩]⟩ = some [m']
      ∧ from_standard_message m'
          = some (.msg ⟨R, [.function_call ⟨nm, args⟩]⟩) := by
  by_cases hRm : R = "model"
  · subst hRm
    refine ⟨⟨"assistant", .items [], [⟨nm, "function", nm, args⟩], none⟩, ?_, ?_⟩
    · rw [to_std_single_fc _ nm args hnm]
      simp
    · simp [from_standard_message]
  · refine ⟨⟨R, .items [], [⟨nm, "function", nm, args⟩], none⟩, ?_, ?_⟩
    · rw [to_std_single_fc _ nm args hnm]
      simp [hRm]
    · simp [from_standard_message, hRs, hRa]

theorem roundtrip_from_std (m : StdMessage) (c : Content)
    (hok : std_message_ok m = true)
    (hfs : from_standard_message m = some (.msg c)) :
    ∃ m', to_standard_messages c = some [m']
      ∧ from_standard_message m' = some (.msg c) := by
  obtain ⟨r, mc, mtc, mtcid⟩ := m
  by_cases hsys : r = "system"
  · subst hsys
    simp [from_standard_message] at hfs
  · simp only [std_message_ok, beq_iff_eq, hsys, Bool.false_or] at hok
    cases mtc with
    | nil =>
      by_cases htool : (if r = "assistant" then "model" else r) = "tool"
      · cases hmc : mc with
        | jstr v =>
          subst hmc
          have hceq : c = ⟨"model",
              [.function_response ⟨"tool_call_result", v⟩]⟩ := by
            simp [from_standard_message, hsys, htool] at hfs
            exact hfs.symm
          subst hceq
          exact ⟨⟨"tool", .jstr v, [], some "tool_call_result"⟩,
            to_std_tool_result v, by simp [from_standard_message]⟩
        | str s =>
          subst hmc
          simp [from_standard_message, hsys, htool] at hfs
        | items l =>
          subst hmc
          simp [from_standard_message, hsys, htool] at hfs
      · have htext : text_content_ok mc = true := by
          rcases (by simpa [htool] using hok : r = "system" ∨ text_content_ok mc = true) with h | h
          · exact absurd h hsys
          · exact h
        cases hmc : mc with
        | str s =>
          subst hmc
          have hs : (s == "") = false := by
            simpa [text_content_ok] using htext
          have hceq : c = ⟨if r = "assistant" then "model" else r, [.text s]⟩ := by
            simp [from_standard_message, hsys, htool] at hfs
            exact hfs.symm
          subst hceq
          have := roundtrip_items (if r = "assistant" then "model" else r)
            [.text s] (by simp [hs]) (roleIn_ne_system r hsys)
            (roleIn_ne_assistant r) htool
          simpa [itemToPart] using this
        | jstr v =>
          subst hmc
          have hs : (jdumps v == "") = false := by
            simpa using jdumps_ne_empty v
          have hceq : c = ⟨if r = "assistant" then "model" else r,
              [.text (jdumps v)]⟩ := by
            simp [from_standard_message, hsys, htool] at hfs
            exact hfs.symm
          subst hceq
          have := roundtrip_items (if r = "assistant" then "model" else r)
            [.text (jdumps v)] (by simp [hs]) (roleIn_ne_system r hsys)
            (roleIn_ne_assistant r) htool
          simpa [itemToPart] using this
        | items l =>
          subst hmc
          have hlok : l.all (fun it =>
              match it with
              | .text t => !(t == "")
              | .image_url _ _ => true) = true := by
            simpa [text_content_ok] using htext
          have hceq : c = ⟨if r = "assistant" then "model" else r,
              l.map itemToPart⟩ := by
            simp [from_standard_message, hsys, htool] at hfs
            exact hfs.symm
          subst hceq
          exact roundtrip_items (if r = "assistant" then "model" else r)
            l hlok (roleIn_ne_system r hsys) (roleIn_ne_assistant r) htool
    | cons tc rest =>
      cases rest with
      | cons tc2 rest2 => simp [hsys] at hok
      | nil =>
        have hnm : (tc.name == "") = false := by
          rcases (by simpa using hok : r = "system" ∨ ¬tc.name = "") with h | h
          · exact absurd h hsys
          · simpa using h
        have hceq : c = ⟨if r = "assistant" then "model" else r,
            [.function_call ⟨tc.name, tc.arguments⟩]⟩ := by
          simp [from_standard_message, hsys] at hfs
          exact hfs.symm
        subst hceq
        exact roundtrip_single_fc (if r = "assistant" then "model" else r)
          tc.name tc.arguments (roleIn_ne_system r hsys)
          (roleIn_ne_assistant r) hnm

theorem restructure_core_mem (ms : List StdMessage) (sys0 sys : Option StdContent)
    (mapped : List Content)
    (h : restructure_core ms sys0 = some (sys, mapped)) :
    ∀ c ∈ mapped, ∃ m ∈ ms, from_standard_message m = some (.msg c) := by
  induction ms generalizing sys0 sys mapped with
  | nil =>
    simp only [restructure_core, Option.some.injEq, Prod.mk.injEq] at h
    rw [← h.2]
    simp
  | cons m rest ih =>
    intro c hc
    rw [restructure_core] at h
    cases hf : from_standard_message m with
    | none => rw [hf] at h; exact absurd h (by simp)
    | some fr =>
      rw [hf] at h
      cases fr with
      | sys s0 =>
        obtain ⟨m', hm', e⟩ := ih (some s0) sys mapped h c hc
        exact ⟨m', List.Mem.tail _ hm', e⟩
      | msg c0 =>
        cases hr : restructure_core rest sys0 with
        | none => rw [hr] at h; exact absurd h (by simp)
        | some p =>
          rw [hr] at h
          simp only [Option.map_some', Option.some.injEq, Prod.mk.injEq] at h
          rw [← h.2] at hc
          rcases List.mem_cons.mp hc with hce | hcm
          · exact ⟨m, List.Mem.head _, by rw [hf, hce]⟩
          · obtain ⟨m', hm', e⟩ := ih sys0 p.1 p.2 (by rw [hr]) c hcm
            exact ⟨m', List.Mem.tail _ hm', e⟩

/-- C3 counterexample: a standard assistant message carrying two tool calls
restructures into a canonical message with two FunctionCall parts, but
`to_standard_messages` overwrites the tool-calls slot per part, so the
round trip returns a message with only the last call: the round-trip law
fails as stated. -/
theorem round_trip_two_tool_calls_lossy :
    set_messages [⟨"assistant", .items [],
        [⟨"f", "function", "f", .obj []⟩, ⟨"g", "function", "g", .obj []⟩], none⟩]
      = some ⟨[⟨"model",
          [.function_call ⟨"f", .obj []⟩, .function_call ⟨"g", .obj []⟩]⟩], none⟩
    ∧ to_standard_messages
        ⟨"model", [.function_call ⟨"f", .obj []⟩, .function_call ⟨"g", .obj []⟩]⟩
      = some [⟨"assistant", .items [], [⟨"g", "function", "g", .obj []⟩], none⟩]
    ∧ from_standard_message
        ⟨"assistant", .items [], [⟨"g", "function", "g", .obj []⟩], none⟩
      = some (.msg ⟨"model", [.function_call ⟨"g", .obj []⟩]⟩)
    ∧ ([Part.function_call ⟨"g", .obj []⟩] : List Part).length
        ≠ ([Part.function_call ⟨"f", .obj []⟩,
            Part.function_call ⟨"g", .obj []⟩] : List Part).length :=
  ⟨rfl, rfl, rfl, by decide⟩

/-- C3 (corrected): for every standard-message list accepted by
`set_messages` in which each entry carries at most one tool call, tool-call
names are non-empty and no text fragment is empty, every canonical message
of the resulting context translates through `to_standard_messages` to a
single standard message whose re-translation through
`from_standard_message` reproduces the canonical message exactly — roles
are canonicalized (assistant to model and back) and the tool-call id is
rebuilt from the function name; system entries are diverted to the system
message slot and are not part of the round trip. -/
theorem set_messages_round_trip (ms : List StdMessage) (ctx : GoogleLLMContext)
    (hset : set_messages ms = some ctx)
    (hok : ∀ m ∈ ms, std_message_ok m = true) :
    ∀ c ∈ ctx.messages, ∃ m', to_standard_messages c = some [m']
      ∧ from_standard_message m' = some (.msg c) := by
  intro c hc
  unfold set_messages restructure_from_openai_messages at hset
  cases hcore : restructure_core ms none with
  | none => rw [hcore] at hset; exact absurd hset (by simp)
  | some p =>
    obtain ⟨sys, mapped⟩ := p
    rw [hcore] at hset
    simp only [Option.some.injEq] at hset
    rw [← hset] at hc
    have hc' := (List.mem_filter.mp hc).1
    have hgen : c ∈ mapped →
        ∃ m', to_standard_messages c = some [m']
          ∧ from_standard_message m' = some (.msg c) := by
      intro hcm
      obtain ⟨m, hm, hf⟩ := restructure_core_mem ms none sys mapped hcore c hcm
      exact roundtrip_from_std m c (hok m hm) hf
    split at hc'
    · next hcond =>
      cases hsv : sys with
      | none => rw [hsv] at hcond; simp at hcond
      | some s0 =>
        cases hs0 : s0 with
        | str s =>
          rw [hsv, hs0] at hc'
          rw [List.mem_singleton] at hc'
          subst hc'
          rw [hsv, hs0] at hcond
          simp only [stdContentTruthy, Bool.and_eq_true] at hcond
          have hs : (s == "") = false := by
            have h1 := hcond.1
            cases h2 : (s == "") <;> simp [h2] at h1 ⊢
          have := roundtrip_items "user" [.text s] (by simp [hs])
            (by decide) (by decide) (by decide)
          simpa [itemToPart] using this
        | jstr v =>
          rw [hsv, hs0] at hc'
          exact hgen hc'
        | items l =>
          rw [hsv, hs0] at hc'
          exact hgen hc'
    · exact hgen hc'

/-- C3 witness: a single user text message round trips. -/
theorem set_messages_round_trip_witness :
    ∃ m', to_standard_messages ⟨"user", [.text "hi"]⟩ = some [m']
      ∧ from_standard_message m' = some (.msg ⟨"user", [.text "hi"]⟩) :=
  set_messages_round_trip [⟨"user", .str "hi", [], none⟩]
    ⟨[⟨"user", [.text "hi"]⟩], none⟩ rfl
    (by intro m hm; rw [List.mem_singleton] at hm; subst hm; rfl)
    ⟨"user", [.text "hi"]⟩ (List.Mem.head _)

end Pipecat
